import Mathlib

/-!
Verification of the urban-gen layer-storage service.

This file gives a shallow embedding of the Python sources under
`src/deploy/api/app/` (`database.py` and `routers/layers.py`) and proves
properties of the embedded definitions.

Modelling conventions:
* Python numbers appearing in coordinate structures are modelled as
  rationals (`ℚ`); the code only compares them with `min`/`max`, which
  agrees with rational order for all finite floats.
* The seeds `float('inf')` / `float('-inf')` of the bounds fold are
  modelled by the type `ExtQ` of rationals extended with `posInf` and
  `negInf`.
* A coordinates structure is a JSON value built from numbers and arrays
  (`JVal`); this is the fragment of JSON that the recursive walk
  `process_coords` is meant to traverse.
* A Python exception escaping a function (IndexError from `coords[0]` /
  `coords[1]` on a too-short list, TypeError from `min` on a non-number)
  is modelled by `none` / `Except.error`.
* The file system is modelled by `Store`: the set of raw-data artifacts
  (`<id>.geojson`) as a list of ids and the set of metadata artifacts
  (`<id>.meta.json`) as an association list from ids to metadata.
-/

namespace UrbanGen

/-- JSON value fragment for coordinate structures: a number or an array. -/
inductive JVal where
  | num (q : ℚ)
  | arr (xs : List JVal)

/-- Rationals extended with the two infinities, modelling the Python
floats `float('-inf')` and `float('inf')` used as fold seeds. -/
inductive ExtQ where
  | negInf
  | fin (q : ℚ)
  | posInf
deriving DecidableEq, Repr

namespace ExtQ

/-- Order on extended rationals, agreeing with IEEE comparison of
finite floats and infinities (no NaN arises in the program). -/
def le : ExtQ → ExtQ → Prop
  | negInf, _ => True
  | _, posInf => True
  | posInf, _ => False
  | fin a, fin b => a ≤ b
  | fin _, negInf => False

instance : ∀ x y : ExtQ, Decidable (le x y) := fun x y => by
  cases x <;> cases y <;> simp only [le] <;> infer_instance

/-- Python `min` on floats (no NaN): the smaller of the two values. -/
def emin : ExtQ → ExtQ → ExtQ
  | negInf, _ => negInf
  | _, negInf => negInf
  | posInf, y => y
  | x, posInf => x
  | fin a, fin b => fin (Min.min a b)

/-- Python `max` on floats (no NaN): the larger of the two values. -/
def emax : ExtQ → ExtQ → ExtQ
  | posInf, _ => posInf
  | _, posInf => posInf
  | negInf, y => y
  | x, negInf => x
  | fin a, fin b => fin (Max.max a b)

theorem le_refl (x : ExtQ) : le x x := by
  cases x <;> simp [le]

theorem le_trans {x y z : ExtQ} (h1 : le x y) (h2 : le y z) : le x z := by
  cases x <;> cases y <;> cases z <;> simp_all [le]
  exact h1.trans h2

theorem emin_le_left (x y : ExtQ) : le (emin x y) x := by
  cases x <;> cases y <;> simp [le, emin, min_le_left]

theorem emin_le_right (x y : ExtQ) : le (emin x y) y := by
  cases x <;> cases y <;> simp [le, emin, min_le_right]

theorem le_emax_left (x y : ExtQ) : le x (emax x y) := by
  cases x <;> cases y <;> simp [le, emax, le_max_left]

theorem le_emax_right (x y : ExtQ) : le y (emax x y) := by
  cases x <;> cases y <;> simp [le, emax, le_max_right]

theorem emin_ne_negInf {x y : ExtQ} (hx : x ≠ negInf) (hy : y ≠ negInf) :
    emin x y ≠ negInf := by
  cases x <;> cases y <;> simp_all [emin]

theorem emax_ne_posInf {x y : ExtQ} (hx : x ≠ posInf) (hy : y ≠ posInf) :
    emax x y ≠ posInf := by
  cases x <;> cases y <;> simp_all [emax]

theorem not_le_posInf_fin (q : ℚ) : ¬ le posInf (fin q) := by
  simp [le]

theorem le_fin_cases {x : ExtQ} {q : ℚ} (h : le x (fin q)) :
    x = negInf ∨ ∃ a, x = fin a ∧ a ≤ q := by
  cases x <;> simp_all [le]

theorem fin_le_cases {x : ExtQ} {q : ℚ} (h : le (fin q) x) :
    x = posInf ∨ ∃ a, x = fin a ∧ q ≤ a := by
  cases x <;> simp_all [le]

theorem fin_le_fin {a b : ℚ} (h : le (fin a) (fin b)) : a ≤ b := h

end ExtQ

/-- Running accumulator of `calculate_bounds`: the four `nonlocal`
variables `min_lng`, `min_lat`, `max_lng`, `max_lat`. -/
structure Accum where
  minLng : ExtQ
  minLat : ExtQ
  maxLng : ExtQ
  maxLat : ExtQ
deriving DecidableEq, Repr

/-- Leaf update of the accumulator: the four `min`/`max` assignments in
`process_coords` for a leaf pair `(lng, lat)`. -/
def updateAccum (lng lat : ℚ) (a : Accum) : Accum :=
  ⟨a.minLng.emin (.fin lng), a.minLat.emin (.fin lat),
   a.maxLng.emax (.fin lng), a.maxLat.emax (.fin lat)⟩

mutual

/-- Embedding of `process_coords` (database.py lines 80-90).  `none`
models an exception escaping the walk: IndexError from `coords[0]` on an
empty list or `coords[1]` on a one-element leaf, TypeError from
subscripting a number or from `min` against a non-number second element. -/
def process_coords : JVal → Accum → Option Accum
  | .num _, _ => none
  | .arr [], _ => none
  | .arr (.num lng :: rest), a =>
      match rest with
      | .num lat :: _ => some (updateAccum lng lat a)
      | _ => none
  | .arr (.arr ys :: rest), a => process_list (.arr ys :: rest) a

/-- The `for coord in coords: process_coords(coord)` loop of the
non-leaf branch, threading the accumulator and propagating exceptions. -/
def process_list : List JVal → Accum → Option Accum
  | [], a => some a
  | c :: cs, a =>
      match process_coords c a with
      | none => none
      | some a2 => process_list cs a2

end

mutual

/-- Coordinate pairs reachable in a coordinates structure: a node whose
first element is a number is a leaf and yields its first two entries as
a pair (when the second entry is a number); any other array node yields
the pairs of its children.  This is the statement-side notion used to
phrase the claims about `calculate_bounds`. -/
def jpairs : JVal → List (ℚ × ℚ)
  | .num _ => []
  | .arr [] => []
  | .arr (.num lng :: rest) =>
      match rest with
      | .num lat :: _ => [(lng, lat)]
      | _ => []
  | .arr (.arr ys :: rest) => jpairsList (.arr ys :: rest)

/-- Pairs reachable in a list of sibling nodes. -/
def jpairsList : List JVal → List (ℚ × ℚ)
  | [] => []
  | c :: cs => jpairs c ++ jpairsList cs

end

mutual

/-- Well-formedness of a coordinates structure: every node is either a
leaf whose first two elements are numbers, or a nonempty array of
well-formed nodes.  On such structures the recursive walk cannot raise. -/
def wfCoords : JVal → Bool
  | .num _ => false
  | .arr [] => false
  | .arr (.num _ :: rest) =>
      match rest with
      | .num _ :: _ => true
      | _ => false
  | .arr (.arr ys :: rest) => wfList (.arr ys :: rest)

/-- Well-formedness of a list of sibling nodes. -/
def wfList : List JVal → Bool
  | [] => true
  | c :: cs => wfCoords c && wfList cs

end

/-- Python truthiness of a JSON value as used by `if coords:`:
zero and the empty array are falsy. -/
def jtruthy : JVal → Bool
  | .num q => decide (q ≠ 0)
  | .arr xs => !xs.isEmpty

/-- Geometry object: the `type` and `coordinates` entries of a
geometry dictionary (absent entries are `none`). -/
structure Geometry where
  gtype : Option String
  coordinates : Option JVal

/-- Feature object: the `type`, `geometry` and `properties` entries of a
feature dictionary (absent entries are `none`). -/
structure Feature where
  ftype : Option String
  geometry : Option Geometry
  properties : Option (List (String × JVal))

/-- Value of `feature.get('geometry', {}).get('coordinates')`. -/
def coordsOf (f : Feature) : Option JVal :=
  (f.geometry.getD ⟨none, none⟩).coordinates

/-- Initial accumulator of `calculate_bounds`:
`(+inf, +inf, -inf, -inf)`. -/
def initAccum : Accum := ⟨.posInf, .posInf, .negInf, .negInf⟩

/-- One iteration of the `for feature in features` loop of
`calculate_bounds`: look up the coordinates and walk them when truthy. -/
def featureStep (a : Accum) (f : Feature) : Option Accum :=
  match coordsOf f with
  | some c => if jtruthy c then process_coords c a else some a
  | none => some a

/-- The feature loop of `calculate_bounds`, threading the accumulator
and propagating exceptions. -/
def foldFeatures : List Feature → Accum → Option Accum
  | [], a => some a
  | f :: fs, a =>
      match featureStep a f with
      | none => none
      | some a2 => foldFeatures fs a2

/-- Embedding of `calculate_bounds` (database.py lines 70-101).
`Except.error ()` models an exception escaping the function; `.ok none`
models the `None` result; `.ok (some box)` the 4-element bounds list. -/
def calculate_bounds (features : List Feature) : Except Unit (Option (List ExtQ)) :=
  if features.isEmpty then .ok none
  else
    match foldFeatures features initAccum with
    | none => .error ()
    | some a =>
      if a.minLng = .posInf then .ok none
      else .ok (some [a.minLng, a.minLat, a.maxLng, a.maxLat])

/-- Coordinate pairs reachable in one feature's coordinates. -/
def pairsOfFeature (f : Feature) : List (ℚ × ℚ) :=
  match coordsOf f with
  | some c => jpairs c
  | none => []

/-- Coordinate pairs reachable in a feature list, feature by feature. -/
def featPairs (features : List Feature) : List (ℚ × ℚ) :=
  features.flatMap pairsOfFeature

/-- Well-formedness of one feature for the bounds walk: whenever it
carries truthy coordinates, those coordinates are well-formed. -/
def wfFeature (f : Feature) : Bool :=
  match coordsOf f with
  | some c => !jtruthy c || wfCoords c
  | none => true

/-- Well-formedness of a feature list for the bounds walk. -/
def wfFeatures (features : List Feature) : Bool :=
  features.all wfFeature

/-- Metadata object written to `<id>.meta.json` (database.py lines
52-61). -/
structure Metadata where
  id : String
  name : String
  description : Option String
  feature_count : Nat
  geometry_type : Option String
  bounds : Option (List ExtQ)
  created_at : String
  file_size : Nat
deriving DecidableEq, Repr

/-- State of the layers directory: ids having a raw-data artifact
(`<id>.geojson`) and the metadata artifacts (`<id>.meta.json`) as an
association list in directory-enumeration order. -/
structure Store where
  geo : List String
  meta : List (String × Metadata)
deriving DecidableEq, Repr

/-- Writing (or overwriting) the raw-data artifact for `lid`. -/
def writeGeo (lid : String) (st : Store) : Store :=
  { st with geo := lid :: st.geo.filter (fun g => g ≠ lid) }

/-- Writing (or overwriting) the metadata artifact for `lid`. -/
def writeMeta (lid : String) (md : Metadata) (st : Store) : Store :=
  { st with meta := (lid, md) :: st.meta.filter (fun p => p.fst ≠ lid) }

/-- Parsed upload document: the dictionary entries that the handler and
`save_layer` read (`type`, `coordinates`, `features`, `geometry`,
`properties`); absent keys are `none`. -/
structure Doc where
  dtype : Option String
  coordinates : Option JVal
  features : Option (List Feature)
  geometry : Option Geometry
  properties : Option (List (String × JVal))

/-- Embedding of `save_layer` (database.py lines 30-67).  `failGeo` /
`failMeta` say whether the raw-data / metadata file write raises an
I/O error.  The returned store is the directory state after the call,
also when the call raises (`Except.error`): the code has no cleanup
handler, so an artifact written before a later failure stays on disk. -/
def save_layer (lid name : String) (geojson : Doc) (descr : Option String)
    (now : String) (fsize : Nat) (failGeo failMeta : Bool) (st : Store) :
    Except Unit Metadata × Store :=
  if failGeo then (.error (), st)
  else
    let st1 := writeGeo lid st
    let features := geojson.features.getD []
    let feature_count := features.length
    let geometry_type :=
      match features with
      | [] => none
      | f :: _ => (f.geometry.getD ⟨none, none⟩).gtype
    match calculate_bounds features with
    | .error _ => (.error (), st1)
    | .ok bounds =>
      if failMeta then (.error (), st1)
      else
        let md : Metadata :=
          ⟨lid, name, descr, feature_count, geometry_type, bounds, now, fsize⟩
        (.ok md, writeMeta lid md st1)

/-- Embedding of `get_layer` (database.py lines 104-111): reads the
metadata artifact only; `none` models the `None` not-found result. -/
def get_layer (lid : String) (st : Store) : Option Metadata :=
  match st.meta.find? (fun p => p.fst = lid) with
  | some p => some p.snd
  | none => none

/-- Embedding of `list_layers` (database.py lines 124-134): read every
metadata artifact in enumeration order, then `sort(key=created_at,
reverse=True)` — a stable sort, modelled by `mergeSort` with the
descending comparison. -/
def list_layers (st : Store) : List Metadata :=
  (st.meta.map Prod.snd).mergeSort (fun a b => decide (b.created_at ≤ a.created_at))

/-- Embedding of `delete_layer` (database.py lines 137-150): each of the
two artifacts is removed independently when present; the returned flag
says whether anything was removed. -/
def delete_layer (lid : String) (st : Store) : Bool × Store :=
  let hasGeo := st.geo.any (fun g => g = lid)
  let st1 := if hasGeo then { st with geo := st.geo.filter (fun g => g ≠ lid) } else st
  let hasMeta := st1.meta.any (fun p => p.fst = lid)
  let st2 :=
    if hasMeta then { st1 with meta := st1.meta.filter (fun p => p.fst ≠ lid) } else st1
  (hasGeo || hasMeta, st2)

/-- Embedding of the normalization step of `upload_layer`
(routers/layers.py lines 65-82): pass feature collections through, wrap
a feature or a bare geometry (any value carrying a `coordinates` key)
into a one-feature collection, and reject anything else (`none`). -/
def normalize (d : Doc) : Option Doc :=
  if d.dtype = some "FeatureCollection" then some d
  else if d.dtype = some "Feature" then
    some { dtype := some "FeatureCollection",
           coordinates := none, geometry := none, properties := none,
           features := some [⟨d.dtype, d.geometry, d.properties⟩] }
  else if d.coordinates.isSome then
    some { dtype := some "FeatureCollection",
           coordinates := none, geometry := none, properties := none,
           features := some [⟨some "Feature", some ⟨d.dtype, d.coordinates⟩, some []⟩] }
  else none

/-- Outcome of `content.decode('utf-8')` followed by `json.loads`:
`decodeError` models bytes that are not valid UTF-8 (UnicodeDecodeError),
`jsonError` models UTF-8 text that is not valid JSON (JSONDecodeError),
`parsed d` a successfully parsed document. -/
inductive ParseOutcome where
  | decodeError
  | jsonError
  | parsed (d : Doc)

/-- Embedding of the `upload_layer` handler (routers/layers.py lines
44-108), returning the HTTP status and the resulting store.  Status
mapping of the source: bad filename suffix → 400 (raised before the
`try`); JSONDecodeError → 400; UnicodeDecodeError is not a
JSONDecodeError, so it falls to `except Exception` → 500; the
HTTPException(400) raised for an unrecognizable shape is itself caught
by `except Exception` → 500; an exception from `save_layer` → 500. -/
def upload_layer (fnameOk : Bool) (po : ParseOutcome) (lid lname : String)
    (descr : Option String) (now : String) (fsize : Nat)
    (failGeo failMeta : Bool) (st : Store) : Nat × Store :=
  if !fnameOk then (400, st)
  else
    match po with
    | .decodeError => (500, st)
    | .jsonError => (400, st)
    | .parsed d =>
      match normalize d with
      | none => (500, st)
      | some nd =>
        match save_layer lid lname nd descr now fsize failGeo failMeta st with
        | (.ok _, st2) => (200, st2)
        | (.error _, st2) => (500, st2)

/-- Embedding of the DELETE endpoint (routers/layers.py lines 111-118):
404 without touching the store when `get_layer` finds no metadata,
otherwise delete and acknowledge with 200. -/
def api_delete_layer (lid : String) (st : Store) : Nat × Store :=
  match get_layer lid st with
  | none => (404, st)
  | some _ => (200, (delete_layer lid st).snd)

/-! Invariants of the bounds walk. -/

/-- Relation between the accumulator before and after a successful walk
step: the minima only shrink, the maxima only grow, and the walk never
introduces `-inf` into a minimum or `+inf` into a maximum. -/
def StepOk (a a2 : Accum) : Prop :=
  ExtQ.le a2.minLng a.minLng ∧ ExtQ.le a2.minLat a.minLat ∧
  ExtQ.le a.maxLng a2.maxLng ∧ ExtQ.le a.maxLat a2.maxLat ∧
  (a.minLng ≠ .negInf → a2.minLng ≠ .negInf) ∧
  (a.minLat ≠ .negInf → a2.minLat ≠ .negInf) ∧
  (a.maxLng ≠ .posInf → a2.maxLng ≠ .posInf) ∧
  (a.maxLat ≠ .posInf → a2.maxLat ≠ .posInf)

/-- Membership of a coordinate pair in the box described by an
accumulator. -/
def inAccum (a : Accum) (p : ℚ × ℚ) : Prop :=
  ExtQ.le a.minLng (.fin p.1) ∧ ExtQ.le (.fin p.1) a.maxLng ∧
  ExtQ.le a.minLat (.fin p.2) ∧ ExtQ.le (.fin p.2) a.maxLat

theorem stepOk_refl (a : Accum) : StepOk a a := by
  refine ⟨ExtQ.le_refl _, ExtQ.le_refl _, ExtQ.le_refl _, ExtQ.le_refl _, ?_, ?_, ?_, ?_⟩ <;>
    exact id

theorem stepOk_trans {a b c : Accum} (h1 : StepOk a b) (h2 : StepOk b c) : StepOk a c := by
  obtain ⟨p1, p2, p3, p4, p5, p6, p7, p8⟩ := h1
  obtain ⟨q1, q2, q3, q4, q5, q6, q7, q8⟩ := h2
  exact ⟨ExtQ.le_trans q1 p1, ExtQ.le_trans q2 p2, ExtQ.le_trans p3 q3, ExtQ.le_trans p4 q4,
    fun h => q5 (p5 h), fun h => q6 (p6 h), fun h => q7 (p7 h), fun h => q8 (p8 h)⟩

theorem inAccum_mono {a b : Accum} {p : ℚ × ℚ} (hs : StepOk a b) (h : inAccum a p) :
    inAccum b p := by
  obtain ⟨s1, s2, s3, s4, -, -, -, -⟩ := hs
  obtain ⟨h1, h2, h3, h4⟩ := h
  exact ⟨ExtQ.le_trans s1 h1, ExtQ.le_trans h2 s3, ExtQ.le_trans s2 h3, ExtQ.le_trans h4 s4⟩

theorem stepOk_update (lng lat : ℚ) (a : Accum) : StepOk a (updateAccum lng lat a) := by
  refine ⟨ExtQ.emin_le_left _ _, ExtQ.emin_le_left _ _,
    ExtQ.le_emax_left _ _, ExtQ.le_emax_left _ _, ?_, ?_, ?_, ?_⟩ <;> intro h
  · exact ExtQ.emin_ne_negInf h (by intro hc; cases hc)
  · exact ExtQ.emin_ne_negInf h (by intro hc; cases hc)
  · exact ExtQ.emax_ne_posInf h (by intro hc; cases hc)
  · exact ExtQ.emax_ne_posInf h (by intro hc; cases hc)

theorem inAccum_update (lng lat : ℚ) (a : Accum) :
    inAccum (updateAccum lng lat a) (lng, lat) :=
  ⟨ExtQ.emin_le_right _ _, ExtQ.le_emax_right _ _,
   ExtQ.emin_le_right _ _, ExtQ.le_emax_right _ _⟩

mutual

theorem process_coords_spec : ∀ (c : JVal) (a a2 : Accum),
    process_coords c a = some a2 → StepOk a a2 ∧ ∀ p ∈ jpairs c, inAccum a2 p
  | .num _, a, a2 => by simp [process_coords]
  | .arr [], a, a2 => by simp [process_coords]
  | .arr (.num lng :: rest), a, a2 => by
    cases rest with
    | nil => simp [process_coords]
    | cons r rs =>
      cases r with
      | num lat =>
        intro h
        simp only [process_coords, Option.some.injEq] at h
        subst h
        refine ⟨stepOk_update lng lat a, ?_⟩
        intro p hp
        simp only [jpairs, List.mem_singleton] at hp
        subst hp
        exact inAccum_update lng lat a
      | arr ys => simp [process_coords]
  | .arr (.arr ys :: rest), a, a2 => by
    intro h
    simp only [process_coords] at h
    have hres := process_list_spec (.arr ys :: rest) a a2 h
    exact ⟨hres.1, by simpa [jpairs] using hres.2⟩

theorem process_list_spec : ∀ (l : List JVal) (a a2 : Accum),
    process_list l a = some a2 → StepOk a a2 ∧ ∀ p ∈ jpairsList l, inAccum a2 p
  | [], a, a2 => by
    intro h
    simp only [process_list, Option.some.injEq] at h
    subst h
    exact ⟨stepOk_refl a, by simp [jpairsList]⟩
  | c :: cs, a, a2 => by
    intro h
    simp only [process_list] at h
    cases hc : process_coords c a with
    | none => rw [hc] at h; exact absurd h (by simp)
    | some a1 =>
      rw [hc] at h
      have h1 := process_coords_spec c a a1 hc
      have h2 := process_list_spec cs a1 a2 h
      refine ⟨stepOk_trans h1.1 h2.1, ?_⟩
      intro p hp
      rcases List.mem_append.mp (by simpa [jpairsList] using hp) with hp1 | hp2
      · exact inAccum_mono h2.1 (h1.2 p hp1)
      · exact h2.2 p hp2

end

mutual

theorem process_coords_total : ∀ (c : JVal), wfCoords c = true →
    ∀ a : Accum, (process_coords c a).isSome
  | .num _ => by simp [wfCoords]
  | .arr [] => by simp [wfCoords]
  | .arr (.num lng :: rest) => by
    cases rest with
    | nil => simp [wfCoords]
    | cons r rs =>
      cases r with
      | num lat => intro _ a; simp [process_coords]
      | arr ys => simp [wfCoords]
  | .arr (.arr ys :: rest) => by
    intro h a
    simp only [wfCoords] at h
    simpa [process_coords] using process_list_total (.arr ys :: rest) h a

theorem process_list_total : ∀ (l : List JVal), wfList l = true →
    ∀ a : Accum, (process_list l a).isSome
  | [] => by intro _ a; simp [process_list]
  | c :: cs => by
    intro h a
    simp only [wfList, Bool.and_eq_true] at h
    have hc := process_coords_total c h.1 a
    cases hres : process_coords c a with
    | none => rw [hres] at hc; exact absurd hc (by simp)
    | some a1 =>
      simpa [process_list, hres] using process_list_total cs h.2 a1

end

/-- Coordinates that the feature loop skips as falsy contain no
reachable pairs. -/
theorem jpairs_of_not_truthy : ∀ {c : JVal}, jtruthy c = false → jpairs c = []
  | .num _, _ => rfl
  | .arr xs, h => by
    cases xs with
    | nil => rfl
    | cons y ys => simp [jtruthy] at h

theorem featureStep_spec (f : Feature) (a a2 : Accum) (h : featureStep a f = some a2) :
    StepOk a a2 ∧ ∀ p ∈ pairsOfFeature f, inAccum a2 p := by
  cases hco : coordsOf f with
  | none =>
    simp only [featureStep, hco, Option.some.injEq] at h
    subst h
    exact ⟨stepOk_refl a, by simp [pairsOfFeature, hco]⟩
  | some c =>
    simp only [featureStep, hco] at h
    by_cases ht : jtruthy c = true
    · rw [if_pos ht] at h
      have hres := process_coords_spec c a a2 h
      exact ⟨hres.1, by simpa [pairsOfFeature, hco] using hres.2⟩
    · rw [if_neg ht] at h
      simp only [Option.some.injEq] at h
      subst h
      refine ⟨stepOk_refl a, ?_⟩
      simp [pairsOfFeature, hco, jpairs_of_not_truthy (Bool.not_eq_true _ ▸ ht)]

theorem foldFeatures_spec : ∀ (fs : List Feature) (a a2 : Accum),
    foldFeatures fs a = some a2 → StepOk a a2 ∧ ∀ p ∈ featPairs fs, inAccum a2 p
  | [], a, a2 => by
    intro h
    simp only [foldFeatures, Option.some.injEq] at h
    subst h
    exact ⟨stepOk_refl a, by simp [featPairs]⟩
  | f :: fs, a, a2 => by
    intro h
    simp only [foldFeatures] at h
    cases hf : featureStep a f with
    | none => rw [hf] at h; exact absurd h (by simp)
    | some a1 =>
      rw [hf] at h
      have h1 := featureStep_spec f a a1 hf
      have h2 := foldFeatures_spec fs a1 a2 h
      refine ⟨stepOk_trans h1.1 h2.1, ?_⟩
      intro p hp
      simp only [featPairs, List.flatMap_cons] at hp
      rcases List.mem_append.mp hp with hp1 | hp2
      · exact inAccum_mono h2.1 (h1.2 p hp1)
      · exact h2.2 p hp2

theorem featureStep_total (f : Feature) (h : wfFeature f = true) (a : Accum) :
    (featureStep a f).isSome := by
  unfold featureStep
  unfold wfFeature at h
  cases hco : coordsOf f with
  | none => simp
  | some c =>
    rw [hco] at h
    by_cases ht : jtruthy c = true
    · simp only [ht, if_true]
      exact process_coords_total c (by simpa [ht] using h) a
    · simp [Bool.not_eq_true _ ▸ ht]

theorem foldFeatures_total : ∀ (fs : List Feature), wfFeatures fs = true →
    ∀ a : Accum, (foldFeatures fs a).isSome
  | [], _, a => by simp [foldFeatures]
  | f :: fs, h, a => by
    simp only [wfFeatures, List.all_cons, Bool.and_eq_true] at h
    have hf := featureStep_total f h.1 a
    cases hres : featureStep a f with
    | none => rw [hres] at hf; exact absurd hf (by simp)
    | some a1 =>
      simpa [foldFeatures, hres] using
        foldFeatures_total fs (by simp [wfFeatures, h.2]) a1

/-- Feature skipped by the loop: absent geometry, absent coordinates
entry, or an empty (hence falsy) coordinates array. -/
theorem featureStep_skip {f : Feature}
    (h : f.geometry = none ∨ coordsOf f = none ∨ coordsOf f = some (.arr [])) (a : Accum) :
    featureStep a f = some a := by
  have hco : coordsOf f = none ∨ coordsOf f = some (.arr []) := by
    rcases h with h | h | h
    · exact Or.inl (by simp [coordsOf, h, Option.getD])
    · exact Or.inl h
    · exact Or.inr h
  rcases hco with h | h <;> simp [featureStep, h, jtruthy]

theorem foldFeatures_skip : ∀ (l : List Feature),
    (∀ f ∈ l, f.geometry = none ∨ coordsOf f = none ∨ coordsOf f = some (.arr [])) →
    ∀ a : Accum, foldFeatures l a = some a
  | [], _, _ => rfl
  | f :: fs, h, a => by
    simp only [foldFeatures, featureStep_skip (h f (by simp))]
    exact foldFeatures_skip fs (fun g hg => h g (by simp [hg])) a

/-! Claim C1. -/

/-- Feature whose coordinates contain the well-formed pair (1, 2) next
to the malformed one-element leaf `[3]`. -/
def crashFeature : Feature :=
  ⟨some "Feature",
   some ⟨some "MultiPoint", some (.arr [.arr [.num 1, .num 2], .arr [.num 3]])⟩, none⟩

/-- Claim C1 counterexample: this feature list contains the coordinate
pair (1, 2), yet `calculate_bounds` raises (IndexError from `coords[1]`
on the one-element leaf `[3]`) instead of returning a box, so the claim
as stated fails. -/
theorem calculate_bounds_crash_despite_pair :
    featPairs [crashFeature] = [(1, 2)] ∧
    calculate_bounds [crashFeature] = .error () ∧
    ∀ box : Option (List ExtQ), calculate_bounds [crashFeature] ≠ .ok box :=
  ⟨rfl, rfl, fun _ h => by cases h⟩

/-- Claim C1 (amended): for every feature list whose coordinate
structures are well-formed (every node is a leaf whose first two
elements are numbers, or a nonempty array of such nodes) and which
contains at least one coordinate pair, `calculate_bounds` returns a
4-element box `[minX, minY, maxX, maxY]` with `minX ≤ maxX` and
`minY ≤ maxY`, and every reachable coordinate pair lies inside the
box. -/
theorem calculate_bounds_correct (features : List Feature)
    (hwf : wfFeatures features = true) (hne : featPairs features ≠ []) :
    ∃ a b c d : ℚ,
      calculate_bounds features = .ok (some [.fin a, .fin b, .fin c, .fin d]) ∧
      a ≤ c ∧ b ≤ d ∧
      ∀ p ∈ featPairs features, a ≤ p.1 ∧ p.1 ≤ c ∧ b ≤ p.2 ∧ p.2 ≤ d := by
  have hfe : features ≠ [] := by
    intro hnil
    rw [hnil] at hne
    exact hne rfl
  have htot := foldFeatures_total features hwf initAccum
  cases hfold : foldFeatures features initAccum with
  | none => rw [hfold] at htot; exact absurd htot (by simp)
  | some acc =>
    obtain ⟨hstep, hcont⟩ := foldFeatures_spec features initAccum acc hfold
    obtain ⟨p0, hp0⟩ := List.exists_mem_of_ne_nil _ hne
    obtain ⟨h1, h2, h3, h4⟩ := hcont p0 hp0
    obtain ⟨-, -, -, -, s5, s6, s7, s8⟩ := hstep
    have hminLng : ∃ q, acc.minLng = .fin q ∧ q ≤ p0.1 := by
      rcases ExtQ.le_fin_cases h1 with hbad | h
      · exact absurd hbad (s5 (by intro hc; cases hc))
      · exact h
    have hminLat : ∃ q, acc.minLat = .fin q ∧ q ≤ p0.2 := by
      rcases ExtQ.le_fin_cases h3 with hbad | h
      · exact absurd hbad (s6 (by intro hc; cases hc))
      · exact h
    have hmaxLng : ∃ q, acc.maxLng = .fin q ∧ p0.1 ≤ q := by
      rcases ExtQ.fin_le_cases h2 with hbad | h
      · exact absurd hbad (s7 (by intro hc; cases hc))
      · exact h
    have hmaxLat : ∃ q, acc.maxLat = .fin q ∧ p0.2 ≤ q := by
      rcases ExtQ.fin_le_cases h4 with hbad | h
      · exact absurd hbad (s8 (by intro hc; cases hc))
      · exact h
    obtain ⟨qa, ha, hap⟩ := hminLng
    obtain ⟨qb, hb, hbp⟩ := hminLat
    obtain ⟨qc, hc, hcp⟩ := hmaxLng
    obtain ⟨qd, hd, hdp⟩ := hmaxLat
    refine ⟨qa, qb, qc, qd, ?_, hap.trans hcp, hbp.trans hdp, ?_⟩
    · have hred : calculate_bounds features =
          if acc.minLng = ExtQ.posInf then .ok none
          else .ok (some [acc.minLng, acc.minLat, acc.maxLng, acc.maxLat]) := by
        unfold calculate_bounds
        rw [if_neg (by simp [List.isEmpty_iff, hfe]), hfold]
      rw [hred, ha, hb, hc, hd, if_neg (by intro hcx; cases hcx)]
    · intro p hp
      obtain ⟨g1, g2, g3, g4⟩ := hcont p hp
      rw [ha] at g1
      rw [hb] at g3
      rw [hc] at g2
      rw [hd] at g4
      exact ⟨ExtQ.fin_le_fin g1, ExtQ.fin_le_fin g2, ExtQ.fin_le_fin g3, ExtQ.fin_le_fin g4⟩

/-- Polygon feature with the nested ring `[[[0,0],[0,5],[5,5],[5,0],[0,0]]]`. -/
def ringFeature : Feature :=
  ⟨some "Feature", some ⟨some "Polygon", some (.arr [.arr [
    .arr [.num 0, .num 0], .arr [.num 0, .num 5], .arr [.num 5, .num 5],
    .arr [.num 5, .num 0], .arr [.num 0, .num 0]]])⟩, none⟩

/-- Witness for `calculate_bounds_correct` at the polygon-ring
feature. -/
theorem calculate_bounds_correct_witness :
    wfFeatures [ringFeature] = true ∧ featPairs [ringFeature] ≠ [] ∧
    ∃ a b c d : ℚ,
      calculate_bounds [ringFeature] = .ok (some [.fin a, .fin b, .fin c, .fin d]) ∧
      a ≤ c ∧ b ≤ d ∧
      ∀ p ∈ featPairs [ringFeature], a ≤ p.1 ∧ p.1 ≤ c ∧ b ≤ p.2 ∧ p.2 ≤ d :=
  ⟨by decide, by decide, calculate_bounds_correct [ringFeature] (by decide) (by decide)⟩

/-! Claim C2. -/

/-- Feature whose coordinates are `[[]]`: an empty sequence nested at
leaf position inside the structure. -/
def nestedEmptyFeature : Feature :=
  ⟨some "Feature", some ⟨some "Polygon", some (.arr [.arr []])⟩, none⟩

/-- Claim C2 counterexample: an empty sequence nested inside the
coordinates structure makes the walk raise IndexError (`coords[0]` on
`[]`), so `calculate_bounds` raises instead of returning normally. -/
theorem calculate_bounds_nested_empty_crash :
    calculate_bounds [nestedEmptyFeature] = .error () ∧
    ∀ r : Option (List ExtQ), calculate_bounds [nestedEmptyFeature] ≠ .ok r :=
  ⟨rfl, fun _ h => by cases h⟩

/-- Claim C2 (amended): an empty sequence at the top of a coordinates
structure is skipped by the `if coords:` truthiness test and contributes
nothing, but an empty sequence reached inside the recursive walk makes
`process_coords` raise IndexError, which aborts `calculate_bounds`. -/
theorem empty_sequence_behavior (f : Feature) (fs : List Feature)
    (h : coordsOf f = some (.arr [])) :
    calculate_bounds (f :: fs) = calculate_bounds fs ∧
    ∀ a : Accum, process_coords (.arr []) a = none := by
  refine ⟨?_, fun a => rfl⟩
  have hstep : ∀ a : Accum, featureStep a f = some a :=
    featureStep_skip (Or.inr (Or.inr h))
  cases fs with
  | nil => simp [calculate_bounds, foldFeatures, hstep, initAccum]
  | cons g gs => simp [calculate_bounds, foldFeatures, hstep]

/-- Feature with an empty top-level coordinates array. -/
def topEmptyFeature : Feature :=
  ⟨some "Feature", some ⟨some "LineString", some (.arr [])⟩, none⟩

/-- Point feature at (10, 20). -/
def pointFeature : Feature :=
  ⟨some "Feature", some ⟨some "Point", some (.arr [.num 10, .num 20])⟩, none⟩

/-- Witness for `empty_sequence_behavior` at a concrete feature list. -/
theorem empty_sequence_behavior_witness :
    coordsOf topEmptyFeature = some (.arr []) ∧
    (calculate_bounds [topEmptyFeature, pointFeature] = calculate_bounds [pointFeature] ∧
     ∀ a : Accum, process_coords (.arr []) a = none) :=
  ⟨rfl, empty_sequence_behavior topEmptyFeature [pointFeature] rfl⟩

/-! Claim C5. -/

/-- Claim C5: for a feature list that is empty, or whose features have
an absent geometry, no coordinates entry, or an empty coordinates
array, `calculate_bounds` returns the `None` sentinel. -/
theorem calculate_bounds_no_pairs (features : List Feature)
    (h : ∀ f ∈ features,
      f.geometry = none ∨ coordsOf f = none ∨ coordsOf f = some (.arr [])) :
    calculate_bounds features = .ok none := by
  cases features with
  | nil => rfl
  | cons f fs =>
    unfold calculate_bounds
    rw [if_neg (by simp), foldFeatures_skip (f :: fs) h initAccum]
    rfl

/-- Witness for `calculate_bounds_no_pairs`: one feature without
geometry, one with a geometry lacking coordinates, one with empty
coordinates. -/
theorem calculate_bounds_no_pairs_witness :
    (∀ f ∈ ([⟨some "Feature", none, none⟩,
             ⟨some "Feature", some ⟨some "Point", none⟩, none⟩,
             topEmptyFeature] : List Feature),
      f.geometry = none ∨ coordsOf f = none ∨ coordsOf f = some (.arr [])) ∧
    calculate_bounds [⟨some "Feature", none, none⟩,
             ⟨some "Feature", some ⟨some "Point", none⟩, none⟩,
             topEmptyFeature] = .ok none := by
  have h : ∀ f ∈ ([⟨some "Feature", none, none⟩,
             ⟨some "Feature", some ⟨some "Point", none⟩, none⟩,
             topEmptyFeature] : List Feature),
      f.geometry = none ∨ coordsOf f = none ∨ coordsOf f = some (.arr []) := by
    intro f hf
    rcases List.mem_cons.mp hf with rfl | hf
    · exact Or.inl rfl
    rcases List.mem_cons.mp hf with rfl | hf
    · exact Or.inr (Or.inl rfl)
    rcases List.mem_cons.mp hf with rfl | hf
    · exact Or.inr (Or.inr rfl)
    · cases hf
  exact ⟨h, calculate_bounds_no_pairs _ h⟩

/-! Claim C6. -/

/-- Claim C6: a leaf pair with extra elements beyond the first two
(for example an altitude) behaves exactly like the bare two-element
pair, and a feature carrying such a leaf yields the pair's degenerate
box, independent of the extra elements. -/
theorem process_coords_extra_elements (lng lat : ℚ) (rest : List JVal) (a : Accum) :
    process_coords (.arr (.num lng :: .num lat :: rest)) a =
      process_coords (.arr [.num lng, .num lat]) a ∧
    calculate_bounds [⟨some "Feature",
        some ⟨some "Point", some (.arr (.num lng :: .num lat :: rest))⟩, none⟩] =
      .ok (some [.fin lng, .fin lat, .fin lng, .fin lat]) := by
  refine ⟨rfl, ?_⟩
  simp [calculate_bounds, foldFeatures, featureStep, coordsOf, jtruthy, process_coords,
    updateAccum, initAccum, ExtQ.emin, ExtQ.emax]

/-! Claim C3. -/

/-- Feature-collection document with an empty features list. -/
def emptyFC : Doc := ⟨some "FeatureCollection", none, some [], none, none⟩

/-- Claim C3 counterexample: on an empty store, a Create whose metadata
write fails leaves the raw-data artifact in place and no metadata
artifact, so the two artifacts for the identifier neither both exist
nor both not exist: nothing is rolled back. -/
theorem save_layer_no_rollback :
    save_layer "lyr1" "nm" emptyFC none "t0" 0 false true ⟨[], []⟩ =
      (.error (), ⟨["lyr1"], []⟩) ∧
    "lyr1" ∈ (save_layer "lyr1" "nm" emptyFC none "t0" 0 false true ⟨[], []⟩).snd.geo ∧
    "lyr1" ∉ (save_layer "lyr1" "nm" emptyFC none "t0" 0 false true
      ⟨[], []⟩).snd.meta.map Prod.fst := by
  have h : save_layer "lyr1" "nm" emptyFC none "t0" 0 false true ⟨[], []⟩ =
      (.error (), ⟨["lyr1"], []⟩) := rfl
  refine ⟨h, ?_, ?_⟩ <;> rw [h] <;> simp

/-- Claim C3 (amended): when the metadata write of a Create fails after
the raw-data artifact was written, no cleanup happens — the raw-data
artifact stays on disk — but since the failed Create writes no
metadata, no record for the identifier becomes observable through Get
or List, which consult only the metadata artifacts. -/
theorem save_layer_meta_failure (lid name : String) (geojson : Doc)
    (descr : Option String) (now : String) (fsize : Nat) (st : Store) :
    (save_layer lid name geojson descr now fsize false true st).fst = .error () ∧
    (save_layer lid name geojson descr now fsize false true st).snd.geo =
      lid :: st.geo.filter (fun g => g ≠ lid) ∧
    (save_layer lid name geojson descr now fsize false true st).snd.meta = st.meta ∧
    (∀ x, get_layer x (save_layer lid name geojson descr now fsize false true st).snd =
      get_layer x st) ∧
    list_layers (save_layer lid name geojson descr now fsize false true st).snd =
      list_layers st := by
  unfold save_layer
  cases hcb : calculate_bounds (geojson.features.getD []) with
  | error e => simp [writeGeo, get_layer, list_layers, hcb]
  | ok b => simp [writeGeo, get_layer, list_layers, hcb]

/-! Claim C4. -/

/-- Bare Point geometry document `{"type": "Point", "coordinates": [10, 20]}`. -/
def barePointDoc : Doc := ⟨some "Point", some (.arr [.num 10, .num 20]), none, none, none⟩

/-- Claim C4: a parsed value that is neither a feature collection nor a
feature but carries a `coordinates` key is wrapped as a one-feature
collection whose single feature has the original value as geometry and
empty properties; uploading the bare Point geometry `[10, 20]` stores a
record with geometry type "Point", feature count 1 and bounds
`[10, 20, 10, 20]`.  `wrapGeometry` is the literal wrapped dictionary
built at routers/layers.py lines 70-77. -/
def wrapGeometry (d : Doc) : Doc :=
  { dtype := some "FeatureCollection",
    coordinates := none, geometry := none, properties := none,
    features := some [⟨some "Feature", some ⟨d.dtype, d.coordinates⟩, some []⟩] }

/-- Claim C4: a parsed value that is neither a feature collection nor a
feature but carries a `coordinates` key is wrapped as a one-feature
collection whose single feature has the original value as geometry and
empty properties; uploading the bare Point geometry `[10, 20]` stores a
record with geometry type "Point", feature count 1 and bounds
`[10, 20, 10, 20]`. -/
theorem upload_wraps_bare_geometry (d : Doc)
    (h1 : d.dtype ≠ some "FeatureCollection")
    (h2 : d.dtype ≠ some "Feature")
    (h3 : d.coordinates.isSome = true) :
    normalize d = some (wrapGeometry d) ∧
    get_layer "id1" (upload_layer true (.parsed barePointDoc)
        "id1" "nm" none "t0" 12 false false ⟨[], []⟩).snd =
      some ⟨"id1", "nm", none, 1, some "Point",
            some [.fin 10, .fin 20, .fin 10, .fin 20], "t0", 12⟩ := by
  refine ⟨?_, rfl⟩
  unfold normalize wrapGeometry
  rw [if_neg h1, if_neg h2, if_pos h3]

/-- Witness for `upload_wraps_bare_geometry` at the bare Point
document. -/
theorem upload_wraps_bare_geometry_witness :
    barePointDoc.dtype ≠ some "FeatureCollection" ∧
    barePointDoc.dtype ≠ some "Feature" ∧
    barePointDoc.coordinates.isSome = true ∧
    (normalize barePointDoc = some (wrapGeometry barePointDoc) ∧
    get_layer "id1" (upload_layer true (.parsed barePointDoc)
        "id1" "nm" none "t0" 12 false false ⟨[], []⟩).snd =
      some ⟨"id1", "nm", none, 1, some "Point",
            some [.fin 10, .fin 20, .fin 10, .fin 20], "t0", 12⟩) :=
  ⟨by decide, by decide, rfl,
   upload_wraps_bare_geometry barePointDoc (by decide) (by decide) rfl⟩

/-! Claim C8. -/

/-- Claim C8 counterexample: bytes that are not valid UTF-8 (for
example the single byte 0xFF) are not valid JSON text, yet the handler
answers 500, not 400: the UnicodeDecodeError raised by
`content.decode('utf-8')` is not a `json.JSONDecodeError`, so it falls
to the generic `except Exception` branch. -/
theorem upload_undecodable_gives_500 :
    upload_layer true .decodeError "id1" "nm" none "t0" 0 false false ⟨[], []⟩ =
      (500, ⟨[], []⟩) ∧
    (upload_layer true .decodeError "id1" "nm" none "t0" 0 false false ⟨[], []⟩).fst ≠ 400 :=
  ⟨rfl, by decide⟩

/-- Claim C8 (amended): with an accepted filename, an upload whose
bytes decode as UTF-8 but fail JSON parsing is rejected with 400 before
any shape check or write, and an upload whose bytes are not valid UTF-8
is rejected with 500; in both cases the store — hence any subsequent
List — is unchanged. -/
theorem upload_invalid_json_rejected (lid lname : String) (descr : Option String)
    (now : String) (fsize : Nat) (failGeo failMeta : Bool) (st : Store) :
    upload_layer true .jsonError lid lname descr now fsize failGeo failMeta st = (400, st) ∧
    upload_layer true .decodeError lid lname descr now fsize failGeo failMeta st = (500, st) ∧
    list_layers (upload_layer true .jsonError lid lname descr now fsize
      failGeo failMeta st).snd = list_layers st :=
  ⟨rfl, rfl, rfl⟩

/-! Claim C9. -/

/-- Evaluation of `delete_layer`: result flag and resulting artifact
sets. -/
theorem delete_layer_eq (lid : String) (st : Store) :
    delete_layer lid st =
      (st.geo.any (fun g => g = lid) || st.meta.any (fun p => p.fst = lid),
       ⟨if st.geo.any (fun g => g = lid) then st.geo.filter (fun g => g ≠ lid) else st.geo,
        if st.meta.any (fun p => p.fst = lid)
          then st.meta.filter (fun p => p.fst ≠ lid) else st.meta⟩) := by
  unfold delete_layer
  by_cases hg : st.geo.any (fun g => g = lid) <;>
    by_cases hm : st.meta.any (fun p => p.fst = lid) <;>
      simp [hg, hm]

/-- The existence check on raw-data artifacts decides membership. -/
theorem any_eq_mem_geo (l : List String) (x : String) :
    l.any (fun g => g = x) = decide (x ∈ l) := by
  rw [Bool.eq_iff_iff]
  simp [List.any_eq_true]

/-- The existence check on metadata artifacts decides membership of the
identifier among the stored metadata ids. -/
theorem any_eq_mem_meta (l : List (String × Metadata)) (x : String) :
    l.any (fun p => p.fst = x) = decide (x ∈ l.map Prod.fst) := by
  rw [Bool.eq_iff_iff]
  simp [List.any_eq_true, List.mem_map]

/-- Claim C9: Delete removes each artifact independently and reports
whether anything was removed: the flag is true exactly when the
raw-data artifact or the metadata artifact existed; afterwards neither
artifact exists for the identifier, and the artifacts of every other
identifier are untouched. -/
theorem delete_layer_spec (lid : String) (st : Store) :
    ((delete_layer lid st).fst = true ↔
      lid ∈ st.geo ∨ lid ∈ st.meta.map Prod.fst) ∧
    lid ∉ (delete_layer lid st).snd.geo ∧
    lid ∉ (delete_layer lid st).snd.meta.map Prod.fst ∧
    (∀ g, g ≠ lid → (g ∈ (delete_layer lid st).snd.geo ↔ g ∈ st.geo)) ∧
    (∀ x md, x ≠ lid → ((x, md) ∈ (delete_layer lid st).snd.meta ↔ (x, md) ∈ st.meta)) := by
  rw [delete_layer_eq, any_eq_mem_geo, any_eq_mem_meta]
  refine ⟨?_, ?_, ?_, fun g hgne => ?_, fun x md hxne => ?_⟩
  · simp
  · by_cases hg : lid ∈ st.geo <;> simp [hg, List.mem_filter]
  · by_cases hm : lid ∈ st.meta.map Prod.fst <;>
      simp [hm, List.mem_filter, List.mem_map]
  · by_cases hg : lid ∈ st.geo <;> simp [hg, List.mem_filter, hgne]
  · by_cases hm : lid ∈ st.meta.map Prod.fst <;> simp [hm, List.mem_filter, hxne]

/-! Claim C10. -/

/-- Claim C10: record existence at the public interface is decided by
the metadata artifact alone.  When only the raw-data artifact exists,
`get_layer` reports not-found and the DELETE endpoint answers 404 with
the store untouched, so the orphaned raw-data artifact survives. -/
theorem orphan_raw_data_invisible (lid : String) (st : Store)
    (hmeta : lid ∉ st.meta.map Prod.fst) (hgeo : lid ∈ st.geo) :
    get_layer lid st = none ∧
    api_delete_layer lid st = (404, st) ∧
    lid ∈ (api_delete_layer lid st).snd.geo := by
  have hfind : st.meta.find? (fun p => p.fst = lid) = none := by
    rw [List.find?_eq_none]
    intro p hp
    simp only [decide_eq_true_eq]
    intro hc
    exact hmeta (List.mem_map.mpr ⟨p, hp, hc⟩)
  have hget : get_layer lid st = none := by
    unfold get_layer
    rw [hfind]
  have hdel : api_delete_layer lid st = (404, st) := by
    unfold api_delete_layer
    rw [hget]
  exact ⟨hget, hdel, by rw [hdel]; exact hgeo⟩

/-- Witness for `orphan_raw_data_invisible`: a store holding only the
raw-data artifact of "a". -/
theorem orphan_raw_data_invisible_witness :
    ("a" ∉ (⟨["a"], []⟩ : Store).meta.map Prod.fst) ∧
    ("a" ∈ (⟨["a"], []⟩ : Store).geo) ∧
    (get_layer "a" ⟨["a"], []⟩ = none ∧
     api_delete_layer "a" ⟨["a"], []⟩ = (404, ⟨["a"], []⟩) ∧
     "a" ∈ (api_delete_layer "a" ⟨["a"], []⟩).snd.geo) :=
  ⟨by simp, by simp,
   orphan_raw_data_invisible "a" ⟨["a"], []⟩ (by simp) (by simp)⟩

/-! Claim C7. -/

/-- Claim C7: List returns one entry per stored metadata artifact (a
permutation of them), ordered by `created_at` descending, and stably:
any subsequence of the stored metadata whose `created_at` keys are
pairwise non-increasing — in particular any run of tied records in
enumeration order — survives as a subsequence of the output. -/
theorem list_layers_spec (st : Store) (c : List Metadata)
    (h1 : c.Pairwise (fun a b => b.created_at ≤ a.created_at))
    (h2 : c.Sublist (st.meta.map Prod.snd)) :
    (list_layers st).Perm (st.meta.map Prod.snd) ∧
    (list_layers st).Pairwise (fun a b => b.created_at ≤ a.created_at) ∧
    c.Sublist (list_layers st) := by
  have htrans : ∀ x y z : Metadata,
      (fun a b : Metadata => decide (b.created_at ≤ a.created_at)) x y →
      (fun a b : Metadata => decide (b.created_at ≤ a.created_at)) y z →
      (fun a b : Metadata => decide (b.created_at ≤ a.created_at)) x z := by
    intro x y z hxy hyz
    simp only [decide_eq_true_eq] at *
    exact le_trans hyz hxy
  have htotal : ∀ x y : Metadata,
      ((fun a b : Metadata => decide (b.created_at ≤ a.created_at)) x y ||
       (fun a b : Metadata => decide (b.created_at ≤ a.created_at)) y x) := by
    intro x y
    simp only [Bool.or_eq_true, decide_eq_true_eq]
    exact le_total y.created_at x.created_at
  refine ⟨List.mergeSort_perm _ _, ?_, ?_⟩
  · have hs := List.sorted_mergeSort htrans htotal (st.meta.map Prod.snd)
    exact hs.imp (by intro a b h; simpa using h)
  · exact List.sublist_mergeSort htrans htotal
      (h1.imp (by intro a b h; simpa using h)) h2

/-- Witness for `list_layers_spec`: a two-record store, instantiated
with the empty subsequence. -/
theorem list_layers_spec_witness :
    (([] : List Metadata).Pairwise (fun a b => b.created_at ≤ a.created_at)) ∧
    (([] : List Metadata).Sublist
      ((⟨[], [("b", ⟨"b", "B", none, 0, none, none, "2024-01-01", 0⟩),
              ("a", ⟨"a", "A", none, 0, none, none, "2024-01-02", 0⟩)]⟩ :
        Store).meta.map Prod.snd)) ∧
    ((list_layers ⟨[], [("b", ⟨"b", "B", none, 0, none, none, "2024-01-01", 0⟩),
              ("a", ⟨"a", "A", none, 0, none, none, "2024-01-02", 0⟩)]⟩).Perm
      ((⟨[], [("b", ⟨"b", "B", none, 0, none, none, "2024-01-01", 0⟩),
              ("a", ⟨"a", "A", none, 0, none, none, "2024-01-02", 0⟩)]⟩ :
        Store).meta.map Prod.snd) ∧
     (list_layers ⟨[], [("b", ⟨"b", "B", none, 0, none, none, "2024-01-01", 0⟩),
              ("a", ⟨"a", "A", none, 0, none, none, "2024-01-02", 0⟩)]⟩).Pairwise
        (fun a b => b.created_at ≤ a.created_at) ∧
     ([] : List Metadata).Sublist
       (list_layers ⟨[], [("b", ⟨"b", "B", none, 0, none, none, "2024-01-01", 0⟩),
              ("a", ⟨"a", "A", none, 0, none, none, "2024-01-02", 0⟩)]⟩)) :=
  ⟨List.Pairwise.nil, List.nil_sublist _,
   list_layers_spec _ [] List.Pairwise.nil (List.nil_sublist _)⟩

end UrbanGen
